import Mathlib

set_option autoImplicit false

namespace Vello

/-!
Verification of the scheduling and resource-management core of the
vello GPU rasterizer prototype: the decoupled-lookback scan
(`crates/atomic_lookback_prefix/src/main.rs`), the render graph
(`vello/src/graph.rs`), the pipeline planner (`src/render.rs`) and the
pipeline-cache persistence helpers (`src/util.rs`).
-/

-- === Section 1: the decoupled-lookback scan ===

/-- The 32-bit wrapping addition: the accumulator of the prefix-sum shader
and of the host-side checksum loop (`agg += v` on `u32`). -/
def u32add (a b : Nat) : Nat := (a + b) % 2 ^ 32

/-- Sequential inclusive scan with carry `c`: at each position the
running left-fold of the carry and all elements so far.  This is the
reference the host-side checksum loop of `main.rs` (lines 140-145)
computes. -/
def inclScan (c : Nat) : List Nat → List Nat
  | [] => []
  | x :: xs => u32add c x :: inclScan (u32add c x) xs

/-- A tile's aggregate: the full local reduction of its elements. -/
def tileAgg (t : List Nat) : Nat := t.foldl u32add 0

/-- Partition the input into tiles of width `w` (the last tile may be
short).  For `w = 0` the whole input is a single tile; the program only
uses `w = 256`. -/
def tiles : Nat → List Nat → List (List Nat)
  | _, [] => []
  | 0, x :: xs => [x :: xs]
  | w + 1, x :: xs => (x :: xs).take (w + 1) :: tiles (w + 1) ((x :: xs).drop (w + 1))
termination_by _ l => l.length
decreasing_by
  simp only [List.length_drop, List.length_cons]
  omega

/-- Modelled from the spec: the lookback walk of tile `i`
(spec 4.1 step 3, `prefix_sum.wgsl` is not in the sources).  Walking
backward folding in predecessor aggregates until a resolved inclusive
tile-level value is found resolves, deterministically, to the in-order
fold of all predecessor tile aggregates. -/
def lookbackBase (ts : List (List Nat)) (i : Nat) : Nat :=
  ((ts.take i).map tileAgg).foldl u32add 0

/-- Modelled from the spec: output of the decoupled-lookback scan
(spec 4.1, `prefix_sum.wgsl` is not in the sources), one list per tile:
each tile computes a local inclusive scan of its elements and adds in
its exclusive tile-level value found by the lookback walk. -/
def scanTiles (ts : List (List Nat)) : List (List Nat) :=
  (List.range ts.length).map fun i =>
    (inclScan 0 (ts.getD i [])).map (u32add (lookbackBase ts i))

/-- The full scan over a tiled input: tile the input, run every tile,
and read the outputs back in tile order. -/
def scanLookback (w : Nat) (input : List Nat) : List Nat :=
  (scanTiles (tiles w input)).flatten

/-- The concrete validation input of `main.rs` line 30:
`(0..(total_data / 32)).flat_map(|_| 0..32)` with
`total_data = 256 * 10_000`. -/
def rampInput : List Nat :=
  (List.range (256 * 10000 / 32)).flatMap fun _ => List.range 32

-- === Scan lemmas ===

theorem u32add_lt (a b : Nat) : u32add a b < 2 ^ 32 :=
  Nat.mod_lt _ (by norm_num)

theorem u32add_mod_left (a b : Nat) : u32add (a % 2 ^ 32) b = u32add a b := by
  simp [u32add, Nat.add_mod, Nat.mod_mod_of_dvd]

theorem u32add_assoc (a b c : Nat) : u32add (u32add a b) c = u32add a (u32add b c) := by
  simp only [u32add]
  omega

/-- The carry of `inclScan` only matters modulo `2 ^ 32`. -/
theorem inclScan_carry_mod (c : Nat) (l : List Nat) :
    inclScan (c % 2 ^ 32) l = inclScan c l := by
  cases l with
  | nil => rfl
  | cons x xs =>
    show u32add (c % 2 ^ 32) x :: inclScan (u32add (c % 2 ^ 32) x) xs = _
    rw [u32add_mod_left]
    rfl

theorem inclScan_append (c : Nat) (xs ys : List Nat) :
    inclScan c (xs ++ ys) = inclScan c xs ++ inclScan (xs.foldl u32add c) ys := by
  induction xs generalizing c with
  | nil => rfl
  | cons x xs ih => simp [inclScan, ih]

theorem inclScan_shift (c d : Nat) (l : List Nat) :
    inclScan (u32add c d) l = (inclScan d l).map (u32add c) := by
  induction l generalizing d with
  | nil => rfl
  | cons x xs ih => simp [inclScan, u32add_assoc, ih]

theorem foldl_u32add_mod (c : Nat) (l : List Nat) :
    l.foldl u32add (c % 2 ^ 32) = l.foldl u32add c % 2 ^ 32 := by
  induction l generalizing c with
  | nil => simp
  | cons x xs ih =>
    simp only [List.foldl_cons, u32add_mod_left]
    calc xs.foldl u32add (u32add c x)
        = xs.foldl u32add (u32add c x % 2 ^ 32) := by
          rw [Nat.mod_eq_of_lt (u32add_lt c x)]
      _ = xs.foldl u32add (u32add c x) % 2 ^ 32 := ih _

theorem foldl_u32add_shift (c d : Nat) (l : List Nat) :
    l.foldl u32add (u32add c d) = u32add c (l.foldl u32add d) := by
  induction l generalizing d with
  | nil => rfl
  | cons x xs ih => simp only [List.foldl_cons, u32add_assoc, ih]

/-- The carry folded through a tile is, modulo the accumulator width,
the carry combined with the tile's aggregate. -/
theorem foldl_eq_u32add_agg (c : Nat) (t : List Nat) :
    t.foldl u32add c % 2 ^ 32 = u32add c (tileAgg t) := by
  rw [tileAgg, ← foldl_u32add_shift, ← foldl_u32add_mod]
  rfl

/-- Carried form of the per-tile outputs, used to run the induction. -/
def scanTilesC (c : Nat) : List (List Nat) → List (List Nat)
  | [] => []
  | t :: ts => (inclScan 0 t).map (u32add c) :: scanTilesC (u32add c (tileAgg t)) ts

/-- Generalized range form matching `scanTiles` with an arbitrary
starting carry for the lookback fold. -/
theorem scanTilesC_eq_range (c : Nat) (ts : List (List Nat)) :
    scanTilesC c ts = (List.range ts.length).map fun i =>
      (inclScan 0 (ts.getD i [])).map (u32add (((ts.take i).map tileAgg).foldl u32add c)) := by
  induction ts generalizing c with
  | nil => rfl
  | cons t ts ih =>
    simp only [scanTilesC, List.length_cons, List.range_succ_eq_map, List.map_cons,
      List.map_map]
    congr 1
    rw [ih (u32add c (tileAgg t))]
    rfl

theorem scanTiles_eq_C (ts : List (List Nat)) : scanTiles ts = scanTilesC 0 ts := by
  rw [scanTilesC_eq_range]
  rfl

theorem scanTilesC_flatten (c : Nat) (ts : List (List Nat)) :
    (scanTilesC c ts).flatten = inclScan c ts.flatten := by
  induction ts generalizing c with
  | nil => rfl
  | cons t ts ih =>
    have h1 : (inclScan 0 t).map (u32add c) = inclScan c t := by
      rw [← inclScan_shift]
      show inclScan (u32add c 0) t = inclScan c t
      have hc : u32add c 0 = c % 2 ^ 32 := by simp [u32add]
      rw [hc, inclScan_carry_mod]
    have h2 : inclScan (u32add c (tileAgg t)) ts.flatten
        = inclScan (t.foldl u32add c) ts.flatten := by
      rw [← foldl_eq_u32add_agg, inclScan_carry_mod]
    simp only [scanTilesC, List.flatten_cons, ih, h1, h2, inclScan_append]

theorem tiles_flatten (w : Nat) (l : List Nat) : (tiles w l).flatten = l := by
  induction w, l using tiles.induct with
  | case1 w => simp [tiles]
  | case2 x xs => simp [tiles]
  | case3 w x xs ih =>
    rw [tiles]
    simp only [List.flatten_cons, ih, List.take_append_drop]

/-- The decoupled-lookback scan agrees with the sequential inclusive
scan on every input, for every tile width. -/
theorem scanLookback_eq_inclScan (w : Nat) (input : List Nat) :
    scanLookback w input = inclScan 0 input := by
  rw [scanLookback, scanTiles_eq_C, scanTilesC_flatten, tiles_flatten]

theorem inclScan_getD (l : List Nat) (c i : Nat) (h : i < l.length) :
    (inclScan c l).getD i 0 = (l.take (i + 1)).foldl u32add c := by
  induction l generalizing c i with
  | nil => simp at h
  | cons x xs ih =>
    cases i with
    | zero => rfl
    | succ i =>
      have h' : i < xs.length := by
        simp only [List.length_cons] at h
        omega
      show (inclScan (u32add c x) xs).getD i 0 = _
      rw [ih _ _ h']
      rfl

theorem rampInput_length : rampInput.length = 256 * 10000 := by
  rw [rampInput, List.length_flatMap]
  have hc : (List.length ∘ fun _ : Nat => List.range 32) = fun _ : Nat => 32 :=
    funext fun _ => by simp
  rw [hc, List.map_const', List.sum_replicate, List.length_range, smul_eq_mul]

/-- C1: for every finite input sequence, the scan's output at index `i`
equals the sequential left-fold of the input elements from position `0`
through `i` inclusive; in particular, for the standalone validation run
of `2,560,000` `u32` elements in `10,000` tiles of width `256` with
input made of repeating ramps, the value read back at every index `i`
equals the running sum of the input up to and including `i`. -/
theorem C1_scan_matches_sequential_fold :
    (∀ (w : Nat) (input : List Nat) (i : Nat), i < input.length →
        (scanLookback w input).getD i 0 = (input.take (i + 1)).foldl u32add 0) ∧
    rampInput.length = 256 * 10000 ∧
    (∀ i : Nat, i < rampInput.length →
        (scanLookback 256 rampInput).getD i 0 = (rampInput.take (i + 1)).foldl u32add 0) := by
  refine ⟨fun w input i h => ?_, rampInput_length, fun i h => ?_⟩
  · rw [scanLookback_eq_inclScan, inclScan_getD _ _ _ h]
  · rw [scanLookback_eq_inclScan, inclScan_getD _ _ _ h]

theorem C1_scan_witness :
    2 < ([3, 4, 5] : List Nat).length ∧
    (scanLookback 2 [3, 4, 5]).getD 2 0 = (([3, 4, 5] : List Nat).take 3).foldl u32add 0 :=
  ⟨by norm_num, C1_scan_matches_sequential_fold.1 2 [3, 4, 5] 2 (by norm_num)⟩

-- === The standalone driver's overflow guard ===

/-- Events the standalone scan driver issues once past its overflow
guard (`main.rs` lines 37-126, coarsened to the observable resource and
dispatch steps). -/
inductive RunEvent where
  | createBuffer (label : String)
  | dispatchWorkgroups (count : Nat)
  | readback
deriving DecidableEq

/-- The driver `run` of `main.rs`, generalized over the `u32` input
data it uploads: it computes `expected_total` as the wrapping `u32` sum
(line 31), refuses to continue when bit 31 of that total is set
(lines 32-34), and only otherwise creates the buffers, dispatches one
workgroup per 256-element tile and reads the results back. -/
def runScan (input_data : List Nat) : Except String (List RunEvent) :=
  let expected_total := input_data.foldl u32add 0
  if expected_total &&& 2 ^ 31 ≠ 0 then
    Except.error ("Expected total too big: " ++ toString expected_total)
  else
    Except.ok
      [RunEvent.createBuffer "Input buffer",
       RunEvent.createBuffer "Buffer for results",
       RunEvent.createBuffer "Buffer for per-workgroup aggregates",
       RunEvent.createBuffer "Buffer for per-workgroup inclusive prefixes",
       RunEvent.createBuffer "Buffer to load results",
       RunEvent.dispatchWorkgroups (input_data.length / 256),
       RunEvent.readback]

theorem foldl_u32add_lt (l : List Nat) (c : Nat) (h : c < 2 ^ 32) :
    l.foldl u32add c < 2 ^ 32 := by
  induction l generalizing c with
  | nil => exact h
  | cons x xs ih => exact ih _ (u32add_lt c x)

theorem and_bit31_ne_zero (t : Nat) (hlt : t < 2 ^ 32) :
    t &&& 2 ^ 31 ≠ 0 ↔ 2 ^ 31 ≤ t := by
  rw [Nat.and_two_pow]
  rcases h : t.testBit 31 with _ | _ <;>
    simp only [Nat.testBit_to_div_mod, decide_eq_true_eq, decide_eq_false_iff_not] at h <;>
    simp [Bool.toNat] <;> omega

/-- C2: for every input sequence whose `u32` (wrapping) total reduction
is at or above `2 ^ 31`, the driver refuses to run before any buffer is
created or dispatch issued: it returns the overflow error and no event
list is ever produced. -/
theorem C2_overflow_refused (input_data : List Nat)
    (h : 2 ^ 31 ≤ input_data.foldl u32add 0) :
    runScan input_data =
      Except.error ("Expected total too big: " ++ toString (input_data.foldl u32add 0)) ∧
    ∀ events : List RunEvent, runScan input_data ≠ Except.ok events := by
  have hlt := foldl_u32add_lt input_data 0 (by norm_num)
  have hbit : input_data.foldl u32add 0 &&& 2 ^ 31 ≠ 0 :=
    (and_bit31_ne_zero _ hlt).mpr h
  have herr : runScan input_data =
      Except.error ("Expected total too big: " ++ toString (input_data.foldl u32add 0)) := by
    rw [runScan, if_pos hbit]
  exact ⟨herr, fun events hok => by rw [herr] at hok; exact Except.noConfusion hok⟩

theorem C2_overflow_witness :
    2 ^ 31 ≤ ([2 ^ 31] : List Nat).foldl u32add 0 ∧
    runScan [2 ^ 31] =
      Except.error ("Expected total too big: " ++ toString (([2 ^ 31] : List Nat).foldl u32add 0)) :=
  ⟨by norm_num [u32add], (C2_overflow_refused [2 ^ 31] (by norm_num [u32add])).1⟩

-- === Section 2: the render graph (vello/src/graph.rs) ===

/-- The `Generation::nudge` (graph.rs 357-361): a wrapping `u32`
increment. -/
def nudge (generation : Nat) : Nat := (generation + 1) % 2 ^ 32

/-- How a `Painting`'s content is produced (graph.rs 339-351); the
image, canvas and painting payloads are abstracted to identifiers. -/
inductive PaintingSource where
  | image (data : Nat)
  | canvas (scene : Nat) (width height : Nat)
  | blur (source : Nat)
deriving DecidableEq

/-- The ownership-relevant shared state of a `Painting` handle
(graph.rs `PaintingInner`): its process-wide id and the id of the
gallery that created it. -/
structure Painting where
  id : Nat
  gallery_id : Nat
deriving DecidableEq

/-- The `HashMap<PaintingId, (PaintingSource, Generation)>` of a
gallery, as an association list with unique keys. -/
abbrev PaintingMap := List (Nat × PaintingSource × Nat)

def findEntry : PaintingMap → Nat → Option (PaintingSource × Nat)
  | [], _ => none
  | e :: rest, k => if e.1 = k then some e.2 else findEntry rest k

/-- In-place update of an occupied entry (`Entry::Occupied` mutation). -/
def setEntry (m : PaintingMap) (k : Nat) (v : PaintingSource × Nat) : PaintingMap :=
  m.map fun e => if e.1 = k then (k, v) else e

/-- The `HashMap::remove` on the unique-keyed association list. -/
def removeEntry (m : PaintingMap) (k : Nat) : PaintingMap :=
  m.filter fun e => e.1 != k

/-- The `Gallery` (graph.rs 100-107): id, single generation counter, the
paintings map and the reclamation channel's queued contents. -/
structure Gallery where
  id : Nat
  generation : Nat
  paintings : PaintingMap
  incoming_deallocations : List Nat
deriving DecidableEq

/-- The `Gallery::paint` (graph.rs 219-229): rejects a painting created by
a different gallery before touching any state; otherwise nudges the
gallery generation and yields a painter for the painting's id.  The
returned gallery is the post-call state of `&mut self`. -/
def Gallery.paint (g : Gallery) (painting : Painting) : Gallery × Option Nat :=
  if painting.gallery_id ≠ g.id then (g, none)
  else ({ g with generation := nudge g.generation }, some painting.id)

/-- The `Painter::insert` (graph.rs 263-274): an occupied entry has its
source replaced and its per-entry generation nudged; a vacant entry is
inserted with the default generation. -/
def Painter.insert (g : Gallery) (painting : Nat) (new_source : PaintingSource) : Gallery :=
  match findEntry g.paintings painting with
  | some (_, entryGen) =>
      { g with paintings := setEntry g.paintings painting (new_source, nudge entryGen) }
  | none =>
      { g with paintings := g.paintings ++ [(painting, new_source, 0)] }

/-- The `Painter::as_image` (graph.rs 240-242). -/
def Painter.as_image (g : Gallery) (painting : Nat) (image : Nat) : Gallery :=
  Painter.insert g painting (PaintingSource.image image)

/-- The `Painter::as_scene` (graph.rs 255-257). -/
def Painter.as_scene (g : Gallery) (painting : Nat) (scene width height : Nat) : Gallery :=
  Painter.insert g painting (PaintingSource.canvas scene width height)

/-- The `Painter::as_blur` (graph.rs 259-261). -/
def Painter.as_blur (g : Gallery) (painting : Nat) (source : Nat) : Gallery :=
  Painter.insert g painting (PaintingSource.blur source)

/-- The `Gallery::gc` (graph.rs 146-163): drain the reclamation channel,
remove each drained id from the map, and nudge the generation exactly
when the loop body ran at least once (`made_change`). -/
def Gallery.gc (g : Gallery) : Gallery :=
  { g with
    paintings := g.incoming_deallocations.foldl removeEntry g.paintings,
    incoming_deallocations := [],
    generation := if g.incoming_deallocations.isEmpty then g.generation
                  else nudge g.generation }

-- === Render-graph lemmas ===

theorem nudge_ne (generation : Nat) : nudge generation ≠ generation := by
  simp only [nudge]
  omega

theorem findEntry_setEntry (m : PaintingMap) (k : Nat) (v v' : PaintingSource × Nat)
    (h : findEntry m k = some v') : findEntry (setEntry m k v) k = some v := by
  induction m with
  | nil => simp [findEntry] at h
  | cons e rest ih =>
    by_cases hk : e.1 = k
    · simp [setEntry, findEntry, hk]
    · simp only [findEntry, if_neg hk] at h
      simp only [setEntry, List.map_cons, if_neg hk]
      simp only [findEntry, if_neg hk]
      exact ih h

theorem findEntry_append_self (m : PaintingMap) (k : Nat) (v : PaintingSource × Nat)
    (h : findEntry m k = none) : findEntry (m ++ [(k, v)]) k = some v := by
  induction m with
  | nil => simp [findEntry]
  | cons e rest ih =>
    by_cases hk : e.1 = k
    · simp [findEntry, hk] at h
    · simp only [findEntry, if_neg hk] at h
      simp only [List.cons_append, findEntry, if_neg hk]
      exact ih h

/-- Whatever the entry's prior state, `Painter::insert` leaves the
painting's id mapped to the newly assigned source. -/
theorem insert_finds (g : Gallery) (pid : Nat) (src : PaintingSource) :
    Option.map Prod.fst (findEntry (Painter.insert g pid src).paintings pid) = some src := by
  rw [Painter.insert]
  cases h : findEntry g.paintings pid with
  | some v =>
    obtain ⟨s, entryGen⟩ := v
    rw [findEntry_setEntry g.paintings pid _ _ h]
    rfl
  | none =>
    rw [findEntry_append_self g.paintings pid _ h]
    rfl

/-- The `Painter::insert` never touches the gallery-level generation. -/
theorem insert_generation (g : Gallery) (pid : Nat) (src : PaintingSource) :
    (Painter.insert g pid src).generation = g.generation := by
  rw [Painter.insert]
  cases h : findEntry g.paintings pid with
  | some v => obtain ⟨s, entryGen⟩ := v; rfl
  | none => rfl

theorem findEntry_removeEntry_self (m : PaintingMap) (k : Nat) :
    findEntry (removeEntry m k) k = none := by
  induction m with
  | nil => rfl
  | cons e rest ih =>
    by_cases hk : e.1 = k
    · simpa [removeEntry, List.filter_cons, hk] using ih
    · simpa [removeEntry, List.filter_cons, hk, findEntry] using ih

theorem findEntry_removeEntry_none (m : PaintingMap) (j k : Nat)
    (h : findEntry m k = none) : findEntry (removeEntry m j) k = none := by
  induction m with
  | nil => rfl
  | cons e rest ih =>
    by_cases hk : e.1 = k
    · simp [findEntry, hk] at h
    · simp only [findEntry, if_neg hk] at h
      by_cases hj : e.1 = j
      · simpa [removeEntry, List.filter_cons, hj] using ih h
      · simpa [removeEntry, List.filter_cons, hj, findEntry, hk] using ih h

theorem foldl_remove_none (ids : List Nat) (m : PaintingMap) (k : Nat)
    (h : findEntry m k = none) : findEntry (ids.foldl removeEntry m) k = none := by
  induction ids generalizing m with
  | nil => exact h
  | cons j rest ih => exact ih _ (findEntry_removeEntry_none m j k h)

theorem foldl_remove_mem (ids : List Nat) (m : PaintingMap) (k : Nat)
    (h : k ∈ ids) : findEntry (ids.foldl removeEntry m) k = none := by
  induction ids generalizing m with
  | nil => cases h
  | cons j rest ih =>
    by_cases hk : k ∈ rest
    · exact ih _ hk
    · have hkj : k = j := by
        cases h with
        | head => rfl
        | tail _ hmem => exact absurd hmem hk
      subst hkj
      exact foldl_remove_none rest _ k (findEntry_removeEntry_self m k)

-- === Render-graph claim theorems ===

/-- C3: for every painting created by gallery `a` and every distinct
gallery `b`, calling `b.paint` with that painting returns `None` and
leaves `b`'s generation counter and `b`'s paintings map exactly as they
were before the call. -/
theorem C3_cross_gallery_rejected (a b : Gallery) (painting : Painting)
    (hmine : painting.gallery_id = a.id) (hdistinct : b.id ≠ a.id) :
    (b.paint painting).2 = none ∧
    (b.paint painting).1.generation = b.generation ∧
    (b.paint painting).1.paintings = b.paintings := by
  have hne : painting.gallery_id ≠ b.id := by
    rw [hmine]
    exact fun h => hdistinct h.symm
  rw [Gallery.paint, if_pos hne]
  exact ⟨rfl, rfl, rfl⟩

def galleryA : Gallery :=
  { id := 1, generation := 0, paintings := [], incoming_deallocations := [] }

def galleryB : Gallery :=
  { id := 2, generation := 7, paintings := [], incoming_deallocations := [] }

def paintingA : Painting := { id := 0, gallery_id := 1 }

theorem C3_cross_gallery_witness :
    paintingA.gallery_id = galleryA.id ∧ galleryB.id ≠ galleryA.id ∧
    (galleryB.paint paintingA).2 = none ∧
    (galleryB.paint paintingA).1.generation = galleryB.generation ∧
    (galleryB.paint paintingA).1.paintings = galleryB.paintings := by
  have h := C3_cross_gallery_rejected galleryA galleryB paintingA rfl (by decide)
  exact ⟨rfl, by decide, h.1, h.2.1, h.2.2⟩

/-- C10: calling `Gallery::paint` with a painting owned by that gallery
bumps the gallery's generation immediately and regardless of any
terminal assignment: the returned state already has a different
generation while the paintings map is untouched. -/
theorem C10_paint_bumps_generation (g : Gallery) (painting : Painting)
    (hmine : painting.gallery_id = g.id) :
    (g.paint painting).2 = some painting.id ∧
    (g.paint painting).1.generation ≠ g.generation ∧
    (g.paint painting).1.paintings = g.paintings := by
  rw [Gallery.paint, if_neg (fun hne => hne hmine)]
  exact ⟨rfl, nudge_ne g.generation, rfl⟩

theorem C10_paint_witness :
    paintingA.gallery_id = galleryA.id ∧
    (galleryA.paint paintingA).2 = some paintingA.id ∧
    (galleryA.paint paintingA).1.generation ≠ galleryA.generation ∧
    (galleryA.paint paintingA).1.paintings = galleryA.paintings := by
  have h := C10_paint_bumps_generation galleryA paintingA rfl
  exact ⟨rfl, h.1, h.2.1, h.2.2⟩

/-- C6: for every painting owned by a gallery, `paint` followed by any
terminal assignment (`as_image`, `as_scene` or `as_blur`) leaves the
painting's map entry holding the newly assigned source, and the
gallery's generation after the whole operation differs from its value
before. -/
theorem C6_assignment_replaces_source (g : Gallery) (painting : Painting)
    (hmine : painting.gallery_id = g.id) :
    (g.paint painting).2 = some painting.id ∧
    ∀ image scene width height source : Nat,
      (Option.map Prod.fst (findEntry
          (Painter.as_image (g.paint painting).1 painting.id image).paintings painting.id)
            = some (PaintingSource.image image) ∧
        (Painter.as_image (g.paint painting).1 painting.id image).generation
            ≠ g.generation) ∧
      (Option.map Prod.fst (findEntry
          (Painter.as_scene (g.paint painting).1 painting.id scene width height).paintings
            painting.id)
            = some (PaintingSource.canvas scene width height) ∧
        (Painter.as_scene (g.paint painting).1 painting.id scene width height).generation
            ≠ g.generation) ∧
      (Option.map Prod.fst (findEntry
          (Painter.as_blur (g.paint painting).1 painting.id source).paintings painting.id)
            = some (PaintingSource.blur source) ∧
        (Painter.as_blur (g.paint painting).1 painting.id source).generation
            ≠ g.generation) := by
  have hgen : (g.paint painting).1.generation = nudge g.generation := by
    rw [Gallery.paint, if_neg (fun hne => hne hmine)]
  have hgen2 : ∀ src : PaintingSource,
      (Painter.insert (g.paint painting).1 painting.id src).generation ≠ g.generation := by
    intro src
    rw [insert_generation, hgen]
    exact nudge_ne g.generation
  refine ⟨?_, fun image scene width height source => ?_⟩
  · rw [Gallery.paint, if_neg (fun hne => hne hmine)]
  · exact ⟨⟨insert_finds _ _ _, hgen2 _⟩, ⟨insert_finds _ _ _, hgen2 _⟩,
      ⟨insert_finds _ _ _, hgen2 _⟩⟩

theorem C6_assignment_witness :
    paintingA.gallery_id = galleryA.id ∧
    Option.map Prod.fst (findEntry
        (Painter.as_image (galleryA.paint paintingA).1 paintingA.id 42).paintings
        paintingA.id) = some (PaintingSource.image 42) ∧
    (Painter.as_image (galleryA.paint paintingA).1 paintingA.id 42).generation
        ≠ galleryA.generation := by
  have h := ((C6_assignment_replaces_source galleryA paintingA rfl).2 42 0 0 0 0).1
  exact ⟨rfl, h.1, h.2⟩

/-- C5 as stated is refuted by a gallery whose reclamation channel
holds the id of a painting that never had a source assigned: `gc`
removes nothing from the map (it is unchanged), yet the generation is
bumped, so "bumps the generation if and only if something was removed"
fails. -/
def gcPhantomGallery : Gallery :=
  { id := 3, generation := 0, paintings := [], incoming_deallocations := [5] }

theorem C5_gc_counterexample :
    gcPhantomGallery.gc.paintings = gcPhantomGallery.paintings ∧
    gcPhantomGallery.gc.generation ≠ gcPhantomGallery.generation := by
  constructor
  · rfl
  · decide

/-- C5 (amended): `gc` drains the reclamation channel and removes every
drained id from the paintings map (each such id is absent afterwards);
it bumps the gallery's generation if and only if the channel was
non-empty — even when none of the drained ids was present in the map —
and when the channel is empty `gc` changes nothing at all. -/
theorem C5_gc_spec (g : Gallery) :
    (∀ i, i ∈ g.incoming_deallocations → findEntry g.gc.paintings i = none) ∧
    g.gc.incoming_deallocations = [] ∧
    (g.gc.generation ≠ g.generation ↔ g.incoming_deallocations ≠ []) ∧
    (g.incoming_deallocations = [] → g.gc = g) := by
  refine ⟨fun i hi => foldl_remove_mem _ _ _ hi, rfl, ?_, fun he => ?_⟩
  · cases he : g.incoming_deallocations with
    | nil => simp [Gallery.gc, he]
    | cons j rest => simp [Gallery.gc, he, nudge_ne]
  · simp [Gallery.gc, he]
    rw [← he]

def gcWitnessGallery : Gallery :=
  { id := 4, generation := 9, paintings := [(8, PaintingSource.image 0, 0)],
    incoming_deallocations := [8] }

theorem C5_gc_witness :
    8 ∈ gcWitnessGallery.incoming_deallocations ∧
    findEntry gcWitnessGallery.gc.paintings 8 = none ∧
    gcWitnessGallery.incoming_deallocations ≠ [] ∧
    gcWitnessGallery.gc.generation ≠ gcWitnessGallery.generation := by
  have h := C5_gc_spec gcWitnessGallery
  exact ⟨by decide, h.1 8 (by decide), by decide, h.2.2.1.mpr (by decide)⟩

-- === Section 3: the pipeline planner (src/render.rs, src/shaders.rs) ===

/-- The `shaders.rs` line 27. -/
def PATHTAG_REDUCE_WG : Nat := 256

/-- The `shaders.rs` line 29. -/
def PATH_COARSE_WG : Nat := 256

/-- The `render.rs` line 11. -/
def TAG_MONOID_SIZE : Nat := 12

/-- The five compute stages of `Shaders` (shaders.rs 59-65). -/
inductive Shader where
  | pathtag_reduce
  | pathtag_scan
  | path_coarse
  | backdrop
  | fine
deriving DecidableEq

inductive ImageFormat where
  | rgba8
deriving DecidableEq

/-- Modelled from the spec: a proxy (spec 3) is a logical placeholder —
integer id plus declared size and label — carrying no allocation;
`engine.rs` is not under the sources. -/
structure BufProxy where
  id : Nat
  size : Nat
  name : String
deriving DecidableEq

structure ImageProxy where
  id : Nat
  width : Nat
  height : Nat
  format : ImageFormat
deriving DecidableEq

/-- The `Config` (render.rs 27-44), fields in declaration order. -/
structure Config where
  width_in_tiles : Nat
  height_in_tiles : Nat
  target_width : Nat
  target_height : Nat
  n_drawobj : Nat
  n_path : Nat
  n_clip : Nat
  bin_data_start : Nat
  pathtag_base : Nat
  pathdata_base : Nat
  drawtag_base : Nat
  drawdata_base : Nat
  transform_base : Nat
  linewidth_base : Nat
deriving DecidableEq

/-- Modelled from the spec: the operations of a Recording (spec 4.2) —
upload, upload-as-configuration, zero-fill and dispatch with ordered
proxy bindings; `engine.rs` is not under the sources. -/
inductive Command where
  | upload (name : String) (data : List Nat) (proxy : Nat)
  | upload_uniform (name : String) (config : Config) (proxy : Nat)
  | clear_all (proxy : Nat)
  | dispatch (shader : Shader) (wg_size : Nat × Nat × Nat) (resources : List Nat)
deriving DecidableEq

/-- Modelled from the spec: a Recording is an ordered list of
operations referencing proxies by id (spec 3, 4.2); fresh proxy ids are
drawn from a counter so that ids are unique within the recording. -/
structure Recording where
  commands : List Command
  next_proxy : Nat
deriving DecidableEq

/-- Modelled from the spec: `upload(label, bytes)` appends an upload of
host data and yields the pre-populated buffer proxy. -/
def Recording.upload (r : Recording) (name : String) (data : List Nat) :
    Recording × BufProxy :=
  ({ commands := r.commands ++ [Command.upload name data r.next_proxy],
     next_proxy := r.next_proxy + 1 },
   { id := r.next_proxy, size := data.length, name := name })

/-- Modelled from the spec: `upload_configuration` is `upload` flagged
for small fixed-layout access (`upload_uniform` at render.rs 74). -/
def Recording.upload_uniform (r : Recording) (name : String) (config : Config) :
    Recording × BufProxy :=
  ({ commands := r.commands ++ [Command.upload_uniform name config r.next_proxy],
     next_proxy := r.next_proxy + 1 },
   { id := r.next_proxy, size := 14 * 4, name := name })

/-- Modelled from the spec: `create_buffer` yields a new proxy id with
no allocation and appends nothing (`BufProxy::new` at render.rs 76). -/
def BufProxy.new (r : Recording) (size : Nat) (name : String) : Recording × BufProxy :=
  ({ r with next_proxy := r.next_proxy + 1 },
   { id := r.next_proxy, size := size, name := name })

/-- Modelled from the spec: `create_image` yields a new image proxy id
(`ImageProxy::new` at render.rs 117). -/
def ImageProxy.new (r : Recording) (width height : Nat) (format : ImageFormat) :
    Recording × ImageProxy :=
  ({ r with next_proxy := r.next_proxy + 1 },
   { id := r.next_proxy, width := width, height := height, format := format })

/-- Modelled from the spec: `zero_fill` appends a pre-use zero-fill of
the buffer (`clear_all` at render.rs 99). -/
def Recording.clear_all (r : Recording) (buf : BufProxy) : Recording :=
  { r with commands := r.commands ++ [Command.clear_all buf.id] }

/-- Modelled from the spec: `dispatch` appends a compute invocation
with ordered proxy bindings. -/
def Recording.dispatch (r : Recording) (shader : Shader) (wg_size : Nat × Nat × Nat)
    (resources : List Nat) : Recording :=
  { r with commands := r.commands ++ [Command.dispatch shader wg_size resources] }

/-- The flattened scene the planner consumes: tag-byte stream and raw
path-data stream (`scene.data()` at render.rs 53). -/
structure SceneData where
  path_tags : List Nat
  path_data : List Nat
deriving DecidableEq

/-- The `align_up` (render.rs 136-138):
`len + (len.wrapping_neg() & (alignment as usize - 1))`, with the
64-bit `usize` wrapping negation explicit.  Callers pass a non-zero
alignment. -/
def align_up (len : Nat) (alignment : Nat) : Nat :=
  len + ((2 ^ 64 - len % 2 ^ 64) % 2 ^ 64 &&& (alignment - 1))

/-- The `size_to_words` (render.rs 46-48). -/
def size_to_words (byte_size : Nat) : Nat := byte_size / 4

/-- The `Vec::resize(n, v)`: truncate or pad with `v` to length `n`. -/
def listResize (l : List Nat) (n : Nat) (v : Nat) : List Nat :=
  l.take n ++ List.replicate (n - l.length) v

/-- The `pathtag_padded` (render.rs 55). -/
def pathtagPadded (scene : SceneData) : Nat :=
  align_up scene.path_tags.length (4 * PATHTAG_REDUCE_WG)

/-- The single upload buffer built at render.rs 57-62: the tag stream
resized up to `pathtag_padded` with no-op zero bytes, then the path
data. -/
def sceneBytes (scene : SceneData) : List Nat :=
  listResize scene.path_tags (pathtagPadded scene) 0 ++ scene.path_data

/-- The `Config` value built at render.rs 64-72. -/
def renderConfig (scene : SceneData) : Config :=
  { width_in_tiles := 64
    height_in_tiles := 64
    target_width := 64 * 16
    target_height := 64 * 16
    n_drawobj := 0
    n_path := 0
    n_clip := 0
    bin_data_start := 0
    pathtag_base := size_to_words 0
    pathdata_base := size_to_words (listResize scene.path_tags (pathtagPadded scene) 0).length
    drawtag_base := 0
    drawdata_base := 0
    transform_base := 0
    linewidth_base := 0 }

/-- The `render` (render.rs 51-134): the planner's full recording for one
scene, in recorded order, plus the output image proxy. -/
def render (scene : SceneData) : Recording × ImageProxy :=
  let recording : Recording := { commands := [], next_proxy := 0 }
  let n_pathtag := scene.path_tags.length
  let pathtag_wgs := pathtagPadded scene / (4 * PATHTAG_REDUCE_WG)
  let config := renderConfig scene
  let (recording, scene_buf) := recording.upload "scene" (sceneBytes scene)
  let (recording, config_buf) := recording.upload_uniform "config" config
  let (recording, reduced_buf) := BufProxy.new recording (pathtag_wgs * TAG_MONOID_SIZE) "reduced_buf"
  let recording := recording.dispatch Shader.pathtag_reduce (pathtag_wgs, 1, 1)
      [config_buf.id, scene_buf.id, reduced_buf.id]
  let (recording, tagmonoid_buf) := BufProxy.new recording
      (pathtag_wgs * PATHTAG_REDUCE_WG * TAG_MONOID_SIZE) "tagmonoid_buf"
  let recording := recording.dispatch Shader.pathtag_scan (pathtag_wgs, 1, 1)
      [config_buf.id, scene_buf.id, reduced_buf.id, tagmonoid_buf.id]
  let path_coarse_wgs := (n_pathtag + PATH_COARSE_WG - 1) / PATH_COARSE_WG
  let (recording, tiles_buf) := BufProxy.new recording (4097 * 8) "tiles_buf"
  let (recording, segments_buf) := BufProxy.new recording (256 * 24) "segments_buf"
  let recording := recording.clear_all tiles_buf
  let recording := recording.dispatch Shader.path_coarse (path_coarse_wgs, 1, 1)
      [config_buf.id, scene_buf.id, tagmonoid_buf.id, tiles_buf.id, segments_buf.id]
  let recording := recording.dispatch Shader.backdrop (config.height_in_tiles, 1, 1)
      [config_buf.id, tiles_buf.id]
  let (recording, out_image) := ImageProxy.new recording config.target_width
      config.target_height ImageFormat.rgba8
  let recording := recording.dispatch Shader.fine
      (config.width_in_tiles, config.height_in_tiles, 1)
      [config_buf.id, tiles_buf.id, segments_buf.id, out_image.id]
  (recording, out_image)

/-- The shaders dispatched by a recording, in recorded order. -/
def Recording.dispatched (r : Recording) : List Shader :=
  r.commands.filterMap fun c =>
    match c with
    | Command.dispatch shader _ _ => some shader
    | _ => none

/-- The full command list the planner records, made explicit once. -/
theorem render_commands (scene : SceneData) :
    (render scene).1.commands =
      [Command.upload "scene" (sceneBytes scene) 0,
       Command.upload_uniform "config" (renderConfig scene) 1,
       Command.dispatch Shader.pathtag_reduce
         (pathtagPadded scene / (4 * PATHTAG_REDUCE_WG), 1, 1) [1, 0, 2],
       Command.dispatch Shader.pathtag_scan
         (pathtagPadded scene / (4 * PATHTAG_REDUCE_WG), 1, 1) [1, 0, 2, 3],
       Command.clear_all 4,
       Command.dispatch Shader.path_coarse
         ((scene.path_tags.length + PATH_COARSE_WG - 1) / PATH_COARSE_WG, 1, 1)
         [1, 0, 3, 4, 5],
       Command.dispatch Shader.backdrop ((renderConfig scene).height_in_tiles, 1, 1) [1, 4],
       Command.dispatch Shader.fine
         ((renderConfig scene).width_in_tiles, (renderConfig scene).height_in_tiles, 1)
         [1, 4, 5, 6]] := rfl

/-- C4: for every scene, the recording contains all five compute
dispatches in pipeline order — none is omitted on scene emptiness — and
the returned image proxy has exactly the configured target width and
height; in particular this holds for the empty scene, whose target is
the constant 1024 x 1024. -/
theorem C4_full_pipeline (scene : SceneData) :
    (render scene).1.dispatched =
      [Shader.pathtag_reduce, Shader.pathtag_scan, Shader.path_coarse,
       Shader.backdrop, Shader.fine] ∧
    (render scene).2.width = (renderConfig scene).target_width ∧
    (render scene).2.height = (renderConfig scene).target_height ∧
    (render { path_tags := [], path_data := [] }).2.width = 1024 ∧
    (render { path_tags := [], path_data := [] }).2.height = 1024 :=
  ⟨rfl, rfl, rfl, rfl, rfl⟩

theorem C4_empty_witness :
    (render { path_tags := [], path_data := [] }).1.dispatched =
      [Shader.pathtag_reduce, Shader.pathtag_scan, Shader.path_coarse,
       Shader.backdrop, Shader.fine] ∧
    (render { path_tags := [], path_data := [] }).2.width =
      (renderConfig { path_tags := [], path_data := [] }).target_width :=
  ⟨(C4_full_pipeline { path_tags := [], path_data := [] }).1,
   (C4_full_pipeline { path_tags := [], path_data := [] }).2.1⟩

theorem align_up_pow2 (len k : Nat) (hlen : len < 2 ^ 64) (hk : k < 32) :
    align_up len (2 ^ k) % 2 ^ k = 0 ∧ len ≤ align_up len (2 ^ k) ∧
    align_up len (2 ^ k) < len + 2 ^ k := by
  have hKpos : 0 < (2 : Nat) ^ k := pow_pos (by norm_num) k
  have hdvd : (2 : Nat) ^ k ∣ 2 ^ 64 := pow_dvd_pow 2 (by omega)
  have hmod : len % 2 ^ 64 = len := Nat.mod_eq_of_lt hlen
  have hunfold : align_up len (2 ^ k) = len + (2 ^ 64 - len) % 2 ^ k := by
    rw [align_up, hmod, Nat.and_pow_two_sub_one_eq_mod, Nat.mod_mod_of_dvd _ hdvd]
  refine ⟨?_, ?_, ?_⟩
  · rw [hunfold, Nat.add_mod, Nat.mod_mod, ← Nat.add_mod,
      Nat.add_sub_cancel' (le_of_lt hlen)]
    obtain ⟨q, hq⟩ := hdvd
    rw [hq, Nat.mul_mod_right]
  · rw [hunfold]
    exact Nat.le_add_right _ _
  · rw [hunfold]
    exact Nat.add_lt_add_left (Nat.mod_lt _ hKpos) len

theorem pathtagPadded_ge (scene : SceneData) :
    scene.path_tags.length ≤ pathtagPadded scene :=
  Nat.le_add_right _ _

/-- C7: the planner pads the tag stream with zero bytes up to the next
multiple of `4 * PATHTAG_REDUCE_WG`, appends the path-data stream
immediately after into one upload buffer, and the recorded `Config`
carries `pathtag_base` and `pathdata_base` as the word offsets of the
two regions; and `align_up(len, a)` for power-of-two `a` is the least
multiple of `a` at or above `len`. -/
theorem C7_padding_and_offsets (scene : SceneData)
    (hlen : scene.path_tags.length < 2 ^ 64) :
    sceneBytes scene =
      scene.path_tags ++
        List.replicate (pathtagPadded scene - scene.path_tags.length) 0 ++
        scene.path_data ∧
    (render scene).1.commands.get? 0 = some (Command.upload "scene" (sceneBytes scene) 0) ∧
    (renderConfig scene).pathtag_base = 0 ∧
    (renderConfig scene).pathdata_base = pathtagPadded scene / 4 ∧
    (render scene).1.commands.get? 1 =
      some (Command.upload_uniform "config" (renderConfig scene) 1) ∧
    pathtagPadded scene % (4 * PATHTAG_REDUCE_WG) = 0 ∧
    scene.path_tags.length ≤ pathtagPadded scene ∧
    pathtagPadded scene < scene.path_tags.length + 4 * PATHTAG_REDUCE_WG ∧
    (∀ len k : Nat, len < 2 ^ 64 → k < 32 →
      align_up len (2 ^ k) % 2 ^ k = 0 ∧ len ≤ align_up len (2 ^ k) ∧
      align_up len (2 ^ k) < len + 2 ^ k) := by
  have h1024 : (4 * PATHTAG_REDUCE_WG : Nat) = 2 ^ 10 := by norm_num [PATHTAG_REDUCE_WG]
  have hchar := align_up_pow2 scene.path_tags.length 10 hlen (by omega)
  have hpadded : pathtagPadded scene = align_up scene.path_tags.length (2 ^ 10) := by
    rw [pathtagPadded, h1024]
  refine ⟨?_, rfl, rfl, ?_, rfl, ?_, pathtagPadded_ge scene, ?_,
    fun len k hl hk => align_up_pow2 len k hl hk⟩
  · rw [sceneBytes, listResize, List.take_of_length_le (pathtagPadded_ge scene),
      List.append_assoc]
  · rw [renderConfig]
    simp only [size_to_words, listResize, List.length_append, List.length_take,
      List.length_replicate]
    have := pathtagPadded_ge scene
    omega
  · rw [hpadded, h1024]
    exact hchar.1
  · rw [hpadded, h1024]
    exact hchar.2.2

theorem C7_padding_witness :
    ({ path_tags := [], path_data := [] } : SceneData).path_tags.length < 2 ^ 64 ∧
    (renderConfig { path_tags := [], path_data := [] }).pathdata_base =
      pathtagPadded { path_tags := [], path_data := [] } / 4 :=
  ⟨by norm_num,
   (C7_padding_and_offsets { path_tags := [], path_data := [] } (by norm_num)).2.2.2.1⟩

def Command.isDispatchUsing (proxy : Nat) : Command → Bool
  | Command.dispatch _ _ resources => resources.contains proxy
  | _ => false

/-- C8: in the recording produced by `render`, the zero-fill of the
tile-header buffer (proxy 4) appears at an earlier position than the
path-coarse dispatch that accumulates into it, and no dispatch binding
the tile buffer appears before the zero-fill. -/
theorem C8_tiles_zero_filled_first (scene : SceneData) :
    (render scene).1.commands.get? 4 = some (Command.clear_all 4) ∧
    (render scene).1.commands.get? 5 =
      some (Command.dispatch Shader.path_coarse
        ((scene.path_tags.length + PATH_COARSE_WG - 1) / PATH_COARSE_WG, 1, 1)
        [1, 0, 3, 4, 5]) ∧
    (4 : Nat) < 5 ∧
    ∀ j c, (render scene).1.commands.get? j = some c →
      c.isDispatchUsing 4 = true → 4 < j := by
  refine ⟨rfl, rfl, by omega, fun j c hj hc => ?_⟩
  rw [render_commands] at hj
  match j, hj with
  | 0, hj => rw [← Option.some_inj.mp hj] at hc; simp [Command.isDispatchUsing] at hc
  | 1, hj => rw [← Option.some_inj.mp hj] at hc; simp [Command.isDispatchUsing] at hc
  | 2, hj => rw [← Option.some_inj.mp hj] at hc; simp [Command.isDispatchUsing] at hc
  | 3, hj => rw [← Option.some_inj.mp hj] at hc; simp [Command.isDispatchUsing] at hc
  | 4, hj => rw [← Option.some_inj.mp hj] at hc; simp [Command.isDispatchUsing] at hc
  | 5, _ => omega
  | 6, _ => omega
  | 7, _ => omega
  | j + 8, hj => simp at hj

theorem C8_order_witness :
    (Command.dispatch Shader.path_coarse (0, 1, 1) [1, 0, 3, 4, 5]).isDispatchUsing 4
        = true ∧
    (4 : Nat) < 5 :=
  ⟨by decide,
   (C8_tiles_zero_filled_first { path_tags := [], path_data := [] }).2.2.2 5
     (Command.dispatch Shader.path_coarse (0, 1, 1) [1, 0, 3, 4, 5]) rfl (by decide)⟩

-- === Section 4: pipeline-cache persistence (src/util.rs) ===

/-- Filesystem and logging actions the cache helpers attempt, in
program order. -/
inductive FsAction where
  | write (path : String) (data : List Nat)
  | rename (src : String) (dst : String)
  | logError (msg : String)
  | logWarn (msg : String)
  | logInfo (msg : String)
  | logDebug (msg : String)
deriving DecidableEq

/-- The `cache_filename.with_extension("temp")` (util.rs 212); the cache
key has no extension, so this appends one. -/
def tempPath (path : String) : String := path ++ ".temp"

/-- Results the filesystem hands back to the store helper: whether the
temporary-file write and the rename succeed. -/
structure FsEnv where
  write_ok : Bool
  rename_ok : Bool
deriving DecidableEq

/-- The fields of `DeviceHandle` that `store_pipeline_cache` reads:
the optional pipeline cache (holding what `PipelineCache::get_data`
returns for it, if anything) and the optional cache filename. -/
structure DeviceHandle where
  pipeline_cache : Option (Option (List Nat))
  cache_filename : Option String
deriving DecidableEq

/-- The `DeviceHandle::store_pipeline_cache` (util.rs 200-223) as the
ordered list of filesystem and log actions it attempts.  An
`Except.error` models a panic; no branch produces one — every failure
is logged and the function returns. -/
def store_pipeline_cache (handle : DeviceHandle) (env : FsEnv) :
    Except String (List FsAction) :=
  match handle.pipeline_cache with
  | none => Except.ok []
  | some data_opt =>
    match handle.cache_filename with
    | none =>
        Except.ok [FsAction.logWarn
          "Unexpectedly didn't have pipeline cache filename, despite having cache"]
    | some cache_filename =>
      match data_opt with
      | none =>
          Except.ok [FsAction.logWarn "Unexpectedly got None from pipeline cache data"]
      | some data =>
        let temp_filename := tempPath cache_filename
        if env.write_ok then
          if env.rename_ok then
            Except.ok [FsAction.write temp_filename data,
                       FsAction.rename temp_filename cache_filename,
                       FsAction.logInfo "Stored pipeline cache"]
          else
            Except.ok [FsAction.write temp_filename data,
                       FsAction.rename temp_filename cache_filename,
                       FsAction.logError "Got error whilst moving pipeline cache data"]
        else
          Except.ok [FsAction.write temp_filename data,
                     FsAction.logError "Got error whilst writing pipeline cache data"]

/-- The two ways `std::fs::read` can fail at util.rs 153. -/
inductive ReadError where
  | notFound
  | other (msg : String)
deriving DecidableEq

/-- How the pipeline cache object ends up created: initialized from
the read-back bytes (with wgpu-side validation fallback on), or empty
(full recompilation). -/
inductive PipelineCacheInit where
  | fromData (data : List Nat) (fallback : Bool)
  | empty
deriving DecidableEq

/-- The pipeline-cache load inside `RenderContext::new_device`
(util.rs 153-177), given the result of reading the cache file: every
branch yields a created cache, a missing file logs only an info line,
any other error logs an error line; no branch is fatal (an
`Except.error` would model a panic). -/
def load_pipeline_cache (contents : Except ReadError (List Nat)) :
    Except String (PipelineCacheInit × List FsAction) :=
  match contents with
  | Except.ok data =>
      Except.ok (PipelineCacheInit.fromData data true,
        [FsAction.logDebug "Making pipeline cache"])
  | Except.error ReadError.notFound =>
      Except.ok (PipelineCacheInit.empty,
        [FsAction.logInfo "Didn't get pipeline cache"])
  | Except.error (ReadError.other msg) =>
      Except.ok (PipelineCacheInit.empty,
        [FsAction.logError ("Got unexpected error " ++ msg
          ++ " trying to open pipeline cache")])

def FsAction.isErrorLog : FsAction → Bool
  | FsAction.logError _ => true
  | _ => false

theorem tempPath_ne (path : String) : tempPath path ≠ path := by
  intro h
  have hlen := congrArg String.length h
  rw [tempPath, String.length_append] at hlen
  have h5 : (".temp" : String).length = 5 := rfl
  omega

/-- C9: the cache write is atomic in the write-temp-then-rename sense —
any rename the store helper attempts goes from the temporary path to
the final path and is immediately preceded by the successful write of
the cache bytes to that temporary path, and the final path is never
written directly — every store path returns normally; on load, every
read result yields a created cache (never fatal), a missing file falls
back to an empty cache without logging any error, and any other read
error is logged and still falls back to an empty cache. -/
theorem C9_cache_store_atomic_load_nonfatal :
    (∀ (handle : DeviceHandle) (env : FsEnv), ∃ tr,
       store_pipeline_cache handle env = Except.ok tr ∧
       (∀ src dst, FsAction.rename src dst ∈ tr →
          handle.cache_filename = some dst ∧ src = tempPath dst ∧ env.write_ok = true ∧
          ∃ data, handle.pipeline_cache = some (some data) ∧
            tr.get? 0 = some (FsAction.write src data) ∧
            tr.get? 1 = some (FsAction.rename src dst)) ∧
       (∀ dst, handle.cache_filename = some dst →
          ∀ data, FsAction.write dst data ∉ tr)) ∧
    (∀ contents, ∃ result, load_pipeline_cache contents = Except.ok result) ∧
    (∃ acts, load_pipeline_cache (Except.error ReadError.notFound) =
       Except.ok (PipelineCacheInit.empty, acts) ∧
       ∀ a ∈ acts, a.isErrorLog = false) ∧
    (∀ msg, ∃ acts, load_pipeline_cache (Except.error (ReadError.other msg)) =
       Except.ok (PipelineCacheInit.empty, acts) ∧
       ∃ a ∈ acts, a.isErrorLog = true) := by
  refine ⟨fun handle env => ?_, fun contents => ?_,
    ⟨[FsAction.logInfo "Didn't get pipeline cache"], rfl, ?_⟩,
    fun msg => ⟨[FsAction.logError ("Got unexpected error " ++ msg
      ++ " trying to open pipeline cache")], rfl, ?_⟩⟩
  · obtain ⟨pc, cf⟩ := handle
    cases pc with
    | none =>
      exact ⟨[], rfl, fun src dst hmem => absurd hmem (List.not_mem_nil _),
        fun dst hdst data hmem => absurd hmem (List.not_mem_nil _)⟩
    | some data_opt =>
      cases cf with
      | none =>
        refine ⟨_, rfl, fun src dst hmem => ?_, fun dst hdst data hmem => ?_⟩
        · rw [List.mem_singleton] at hmem
          exact FsAction.noConfusion hmem
        · exact Option.noConfusion hdst
      | some cache_filename =>
        cases data_opt with
        | none =>
          refine ⟨_, rfl, fun src dst hmem => ?_, fun dst hdst data hmem => ?_⟩
          · rw [List.mem_singleton] at hmem
            exact FsAction.noConfusion hmem
          · rw [List.mem_singleton] at hmem
            exact FsAction.noConfusion hmem
        | some data =>
          by_cases hw : env.write_ok = true
          · by_cases hr : env.rename_ok = true
            · refine ⟨[FsAction.write (tempPath cache_filename) data,
                       FsAction.rename (tempPath cache_filename) cache_filename,
                       FsAction.logInfo "Stored pipeline cache"],
                by simp [store_pipeline_cache, hw, hr],
                fun src dst hmem => ?_, fun dst hdst d hmem => ?_⟩
              · simp only [List.mem_cons, List.not_mem_nil, or_false] at hmem
                rcases hmem with h | h | h
                · exact FsAction.noConfusion h
                · injection h with hsrc hdst'
                  subst hsrc; subst hdst'
                  exact ⟨rfl, rfl, hw, data, rfl, rfl, rfl⟩
                · exact FsAction.noConfusion h
              · have hcf : cache_filename = dst := Option.some_inj.mp hdst
                subst hcf
                simp only [List.mem_cons, List.not_mem_nil, or_false] at hmem
                rcases hmem with h | h | h
                · injection h with hpath hdata
                  exact tempPath_ne cache_filename hpath.symm
                · exact FsAction.noConfusion h
                · exact FsAction.noConfusion h
            · refine ⟨[FsAction.write (tempPath cache_filename) data,
                       FsAction.rename (tempPath cache_filename) cache_filename,
                       FsAction.logError "Got error whilst moving pipeline cache data"],
                by simp [store_pipeline_cache, hw, hr],
                fun src dst hmem => ?_, fun dst hdst d hmem => ?_⟩
              · simp only [List.mem_cons, List.not_mem_nil, or_false] at hmem
                rcases hmem with h | h | h
                · exact FsAction.noConfusion h
                · injection h with hsrc hdst'
                  subst hsrc; subst hdst'
                  exact ⟨rfl, rfl, hw, data, rfl, rfl, rfl⟩
                · exact FsAction.noConfusion h
              · have hcf : cache_filename = dst := Option.some_inj.mp hdst
                subst hcf
                simp only [List.mem_cons, List.not_mem_nil, or_false] at hmem
                rcases hmem with h | h | h
                · injection h with hpath hdata
                  exact tempPath_ne cache_filename hpath.symm
                · exact FsAction.noConfusion h
                · exact FsAction.noConfusion h
          · refine ⟨[FsAction.write (tempPath cache_filename) data,
                     FsAction.logError "Got error whilst writing pipeline cache data"],
              by simp [store_pipeline_cache, hw],
              fun src dst hmem => ?_, fun dst hdst d hmem => ?_⟩
            · simp only [List.mem_cons, List.not_mem_nil, or_false] at hmem
              rcases hmem with h | h
              · exact FsAction.noConfusion h
              · exact FsAction.noConfusion h
            · have hcf : cache_filename = dst := Option.some_inj.mp hdst
              subst hcf
              simp only [List.mem_cons, List.not_mem_nil, or_false] at hmem
              rcases hmem with h | h
              · injection h with hpath hdata
                exact tempPath_ne cache_filename hpath.symm
              · exact FsAction.noConfusion h
  · cases contents with
    | ok data => exact ⟨_, rfl⟩
    | error e => cases e <;> exact ⟨_, rfl⟩
  · intro a ha
    rw [List.mem_singleton] at ha
    subst ha
    rfl
  · exact ⟨FsAction.logError ("Got unexpected error " ++ msg
      ++ " trying to open pipeline cache"), List.mem_singleton.mpr rfl, rfl⟩

theorem C9_cache_witness :
    ∃ result, load_pipeline_cache (Except.ok [7]) = Except.ok result :=
  C9_cache_store_atomic_load_nonfatal.2.1 (Except.ok [7])

end Vello
